import Mathlib

/-!
Shallow embedding of the move-ranking and FEN-validation core of the
tbserve / atbserve syzygy tablebase servers, together with theorems
settling its specification claims.

Textual data (`uci`, `san`, the FEN query string) is modelled as
`List Char`; C++ `std::string::compare` on the ASCII strings involved is
exactly the lexicographic order on the character list.
-/

namespace Tbserve

/-- The per-move record assembled by the evaluator (struct `MoveInfo` in
`tbserve.cpp`, fields in source order; the Gaviota build adds `has_dtm`/`dtm`). -/
structure MoveInfo where
  uci : List Char
  san : List Char
  insufficient_material : Bool
  checkmate : Bool
  stalemate : Bool
  zeroing : Bool
  has_wdl : Bool
  wdl : Int
  has_dtz : Bool
  dtz : Int
  has_dtm : Bool
  dtm : Int
deriving DecidableEq, Repr

/-- The ranking comparator `compare_move_info` of `tbserve.cpp` (lines 253-270),
translated branch by branch; `true` means `a` sorts before `b`. -/
def compare_move_info (a b : MoveInfo) : Bool :=
  if a.has_dtz ≠ b.has_dtz then b.has_dtz
  else if a.has_wdl ≠ b.has_wdl then b.has_wdl
  else if a.has_wdl ∧ b.has_wdl ∧ a.wdl ≠ b.wdl then decide (a.wdl < b.wdl)
  else if a.checkmate ≠ b.checkmate then a.checkmate
  else if a.stalemate ≠ b.stalemate then a.stalemate
  else if a.insufficient_material ≠ b.insufficient_material then a.insufficient_material
  else if a.has_dtm ∧ b.has_dtm ∧ b.dtm ≠ a.dtm then decide (b.dtm < a.dtm)
  else if a.has_wdl ∧ b.has_wdl ∧ a.wdl < 0 ∧ b.zeroing ≠ a.zeroing then a.zeroing
  else if a.has_wdl ∧ b.has_wdl ∧ a.wdl > 0 ∧ a.zeroing ≠ b.zeroing then b.zeroing
  else if a.has_dtz ∧ b.has_dtz ∧ a.dtz ≠ b.dtz then decide (b.dtz < a.dtz)
  else decide (a.uci < b.uci)

/-- Integer sort keys of a record, ascending-first, in the comparator's key
order (dtz-presence, wdl-presence, wdl, checkmate, stalemate,
insufficient material, dtm, zeroing preference, dtz); the final uci
tie-break is kept separate. -/
def keyInts (x : MoveInfo) : List Int :=
  [ (if x.has_dtz then 1 else 0)
  , (if x.has_wdl then 1 else 0)
  , (if x.has_wdl then x.wdl else 0)
  , (if x.checkmate then 0 else 1)
  , (if x.stalemate then 0 else 1)
  , (if x.insufficient_material then 0 else 1)
  , (if x.has_dtm then -x.dtm else 0)
  , (if x.has_wdl ∧ x.wdl < 0 then (if x.zeroing then 0 else 1)
     else if x.has_wdl ∧ x.wdl > 0 then (if x.zeroing then 1 else 0)
     else 0)
  , (if x.has_dtz then -x.dtz else 0) ]

/-- Lexicographic strict order on integer key lists with a final
character-list tie-break. -/
def lexLt : List Int → List Int → List Char → List Char → Bool
  | [], [], u, v => decide (u < v)
  | x :: xs, y :: ys, u, v =>
      if x < y then true else if y < x then false else lexLt xs ys u v
  | _, _, _, _ => false

lemma lex_head_eq {x y : Int} (h : x = y) (xs ys : List Int) (u v : List Char) :
    lexLt (x :: xs) (y :: ys) u v = lexLt xs ys u v := by
  subst h
  simp [lexLt]

lemma lex_head_lt {x y : Int} (h : x < y) (xs ys : List Int) (u v : List Char) :
    lexLt (x :: xs) (y :: ys) u v = true := by
  simp [lexLt, h]

lemma lex_head_gt {x y : Int} (h : y < x) (xs ys : List Int) (u v : List Char) :
    lexLt (x :: xs) (y :: ys) u v = false := by
  simp [lexLt, h, not_lt_of_lt h]

lemma lexLt_irrefl : ∀ (xs : List Int) (u : List Char), lexLt xs xs u u = false := by
  intro xs
  induction xs with
  | nil => intro u; simp [lexLt]
  | cons x xs ih => intro u; simpa [lex_head_eq rfl] using ih u

lemma lexLt_trans :
    ∀ (xs ys zs : List Int) (u v w : List Char),
      xs.length = ys.length → ys.length = zs.length →
      lexLt xs ys u v = true → lexLt ys zs v w = true →
      lexLt xs zs u w = true := by
  intro xs
  induction xs with
  | nil =>
      intro ys zs u v w h1 h2 hab hbc
      cases ys with
      | nil =>
          cases zs with
          | nil =>
              simp only [lexLt, decide_eq_true_eq] at hab hbc ⊢
              exact lt_trans hab hbc
          | cons z zs => simp at h2
      | cons y ys => simp at h1
  | cons x xs ih =>
      intro ys zs u v w h1 h2 hab hbc
      cases ys with
      | nil => simp at h1
      | cons y ys =>
          cases zs with
          | nil => simp at h2
          | cons z zs =>
              simp only [List.length_cons, Nat.add_right_cancel_iff] at h1 h2
              simp only [lexLt] at hab hbc ⊢
              rcases lt_trichotomy x y with hxy | hxy | hxy
              · rcases lt_trichotomy y z with hyz | hyz | hyz
                · simp [lt_trans hxy hyz]
                · subst hyz; simp [hxy]
                · rw [if_neg (lt_asymm hyz), if_pos hyz] at hbc
                  exact absurd hbc (by simp)
              · subst hxy
                rw [if_neg (lt_irrefl x), if_neg (lt_irrefl x)] at hab
                rcases lt_trichotomy x z with hyz | hyz | hyz
                · simp [hyz]
                · subst hyz
                  rw [if_neg (lt_irrefl x), if_neg (lt_irrefl x)] at hbc ⊢
                  exact ih ys zs u v w h1 h2 hab hbc
                · rw [if_neg (lt_asymm hyz), if_pos hyz] at hbc
                  exact absurd hbc (by simp)
              · rw [if_neg (lt_asymm hxy), if_pos hxy] at hab
                exact absurd hab (by simp)

lemma lexLt_eq_of_incomp :
    ∀ (xs ys : List Int) (u v : List Char),
      xs.length = ys.length →
      lexLt xs ys u v = false → lexLt ys xs v u = false →
      xs = ys ∧ u = v := by
  intro xs
  induction xs with
  | nil =>
      intro ys u v h1 hab hba
      cases ys with
      | nil =>
          simp only [lexLt, decide_eq_false_iff_not] at hab hba
          exact ⟨rfl, le_antisymm (le_of_not_lt hba) (le_of_not_lt hab)⟩
      | cons y ys => simp at h1
  | cons x xs ih =>
      intro ys u v h1 hab hba
      cases ys with
      | nil => simp at h1
      | cons y ys =>
          simp only [List.length_cons, Nat.add_right_cancel_iff] at h1
          simp only [lexLt] at hab hba
          rcases lt_trichotomy x y with hxy | hxy | hxy
          · rw [if_pos hxy] at hab; exact absurd hab (by simp)
          · subst hxy
            rw [if_neg (lt_irrefl x), if_neg (lt_irrefl x)] at hab hba
            obtain ⟨h2, h3⟩ := ih ys u v h1 hab hba
            exact ⟨by rw [h2], h3⟩
          · rw [if_pos hxy] at hba; exact absurd hba (by simp)

lemma keyInts_length (x : MoveInfo) : (keyInts x).length = 9 := by
  simp [keyInts]

lemma comp_key_flag (p q : Bool) (L : Bool) (xs ys : List Int) (u v : List Char)
    (hrest : L = lexLt xs ys u v) :
    (if p ≠ q then p else L) =
      lexLt ((if p then 0 else 1) :: xs) ((if q then 0 else 1) :: ys) u v := by
  by_cases h : p = q
  · subst h
    rw [if_neg (by simp), lex_head_eq rfl]
    exact hrest
  · cases p <;> cases q
    · exact absurd rfl h
    · rw [if_pos (by simp), lex_head_gt (by simp)]
    · rw [if_pos (by simp), lex_head_lt (by simp)]
    · exact absurd rfl h

lemma comp_key_dtm (hm : Bool) (ma mb : Int) (L : Bool) (xs ys : List Int) (u v : List Char)
    (hrest : L = lexLt xs ys u v) :
    (if hm = true ∧ hm = true ∧ mb ≠ ma then decide (mb < ma) else L) =
      lexLt ((if hm then -ma else 0) :: xs) ((if hm then -mb else 0) :: ys) u v := by
  cases hm
  · rw [if_neg (by simp), lex_head_eq (by simp)]
    exact hrest
  · by_cases h : ma = mb
    · subst h
      rw [if_neg (by simp), lex_head_eq rfl]
      exact hrest
    · rcases lt_trichotomy ma mb with hlt | heq | hgt
      · rw [if_pos ⟨rfl, rfl, Ne.symm h⟩, lex_head_gt (by simpa using hlt)]
        exact decide_eq_false (lt_asymm hlt)
      · exact absurd heq h
      · rw [if_pos ⟨rfl, rfl, fun e => h e.symm⟩, lex_head_lt (by simpa using hgt)]
        exact decide_eq_true hgt

lemma comp_key_dtz (hz : Bool) (dza dzb : Int) (u v : List Char) :
    (if hz = true ∧ hz = true ∧ dza ≠ dzb then decide (dzb < dza) else decide (u < v)) =
      lexLt [if hz then -dza else 0] [if hz then -dzb else 0] u v := by
  cases hz
  · rw [if_neg (by simp), lex_head_eq (by simp)]
    rfl
  · by_cases h : dza = dzb
    · subst h
      rw [if_neg (by simp), lex_head_eq rfl]
      rfl
    · rcases lt_trichotomy dza dzb with hlt | heq | hgt
      · rw [if_pos ⟨rfl, rfl, h⟩, lex_head_gt (by simpa using hlt)]
        exact decide_eq_false (lt_asymm hlt)
      · exact absurd heq h
      · rw [if_pos ⟨rfl, rfl, h⟩, lex_head_lt (by simpa using hgt)]
        exact decide_eq_true hgt

lemma comp_key_zero (hw : Bool) (wa wb : Int) (hww : hw = true → wa = wb)
    (za zb : Bool) (L : Bool) (xs ys : List Int) (u v : List Char)
    (hrest : L = lexLt xs ys u v) :
    (if hw = true ∧ hw = true ∧ wa < 0 ∧ zb ≠ za then za
     else if hw = true ∧ hw = true ∧ wa > 0 ∧ za ≠ zb then zb
     else L) =
      lexLt ((if hw = true ∧ wa < 0 then (if za then 0 else 1)
              else if hw = true ∧ wa > 0 then (if za then 1 else 0) else 0) :: xs)
            ((if hw = true ∧ wb < 0 then (if zb then 0 else 1)
              else if hw = true ∧ wb > 0 then (if zb then 1 else 0) else 0) :: ys) u v := by
  cases hw
  · rw [if_neg (by simp), if_neg (by simp), lex_head_eq (by simp)]
    exact hrest
  · have hwweq : wa = wb := hww rfl
    subst hwweq
    rcases lt_trichotomy wa 0 with hneg | hzero | hpos
    · by_cases hzz : za = zb
      · subst hzz
        rw [if_neg (by simp), if_neg (by simp), lex_head_eq rfl]
        exact hrest
      · cases za <;> cases zb
        · exact absurd rfl hzz
        · rw [if_pos ⟨rfl, rfl, hneg, by simp⟩, lex_head_gt (by simp [hneg])]
        · rw [if_pos ⟨rfl, rfl, hneg, by simp⟩, lex_head_lt (by simp [hneg])]
        · exact absurd rfl hzz
    · rw [if_neg (by simp [hzero]), if_neg (by simp [hzero]),
          lex_head_eq (by simp [hzero])]
      exact hrest
    · by_cases hzz : za = zb
      · subst hzz
        rw [if_neg (by simp), if_neg (by simp), lex_head_eq rfl]
        exact hrest
      · have hnneg : ¬ wa < 0 := by omega
        cases za <;> cases zb
        · exact absurd rfl hzz
        · rw [if_neg (by simp [hnneg]), if_pos ⟨rfl, rfl, hpos, by simp⟩,
              lex_head_lt (by simp [hnneg, hpos])]
        · rw [if_neg (by simp [hnneg]), if_pos ⟨rfl, rfl, hpos, by simp⟩,
              lex_head_gt (by simp [hnneg, hpos])]
        · exact absurd rfl hzz

theorem comp_eq_lex (a b : MoveInfo) (h : a.has_dtm = b.has_dtm) :
    compare_move_info a b = lexLt (keyInts a) (keyInts b) a.uci b.uci := by
  obtain ⟨ua, sa, ia, ca, sta, za, hwa, wa, hza, dza, hma, ma⟩ := a
  obtain ⟨ub, sb, ib, cb, stb, zb, hwb, wb, hzb, dzb, hmb, mb⟩ := b
  dsimp only at h
  subst h
  dsimp only [compare_move_info, keyInts]
  by_cases h1 : hza = hzb
  case neg =>
    cases hza <;> cases hzb
    · exact absurd rfl h1
    · rw [if_pos (by simp), lex_head_lt (by simp)]
    · rw [if_pos (by simp), lex_head_gt (by simp)]
    · exact absurd rfl h1
  subst h1
  rw [if_neg (by simp), lex_head_eq rfl]
  by_cases h2 : hwa = hwb
  case neg =>
    cases hwa <;> cases hwb
    · exact absurd rfl h2
    · rw [if_pos (by simp), lex_head_lt (by simp)]
    · rw [if_pos (by simp), lex_head_gt (by simp)]
    · exact absurd rfl h2
  subst h2
  rw [if_neg (by simp), lex_head_eq rfl]
  by_cases h3 : hwa = true
  case neg =>
    rw [if_neg (by simp [h3]), lex_head_eq (by simp [h3])]
    exact comp_key_flag ca cb _ _ _ _ _
      (comp_key_flag sta stb _ _ _ _ _
        (comp_key_flag ia ib _ _ _ _ _
          (comp_key_dtm hma ma mb _ _ _ _ _
            (comp_key_zero hwa wa wb (fun hh => absurd hh h3) za zb _ _ _ _ _
              (comp_key_dtz hza dza dzb ua ub)))))
  subst h3
  by_cases h3v : wa = wb
  · subst h3v
    rw [if_neg (by simp), lex_head_eq rfl]
    exact comp_key_flag ca cb _ _ _ _ _
      (comp_key_flag sta stb _ _ _ _ _
        (comp_key_flag ia ib _ _ _ _ _
          (comp_key_dtm hma ma mb _ _ _ _ _
            (comp_key_zero true wa wa (fun _ => rfl) za zb _ _ _ _ _
              (comp_key_dtz hza dza dzb ua ub)))))
  · rcases lt_trichotomy wa wb with hlt | heq | hgt
    · rw [if_pos ⟨rfl, rfl, h3v⟩, lex_head_lt (by simpa using hlt)]
      exact decide_eq_true hlt
    · exact absurd heq h3v
    · rw [if_pos ⟨rfl, rfl, h3v⟩, lex_head_gt (by simpa using hgt)]
      exact decide_eq_false (lt_asymm hgt)


lemma compare_irrefl (a : MoveInfo) : compare_move_info a a = false := by
  rw [comp_eq_lex a a rfl]
  exact lexLt_irrefl _ _

lemma compare_trans (a b c : MoveInfo)
    (hab : a.has_dtm = b.has_dtm) (hbc : b.has_dtm = c.has_dtm)
    (h1 : compare_move_info a b = true) (h2 : compare_move_info b c = true) :
    compare_move_info a c = true := by
  rw [comp_eq_lex a b hab] at h1
  rw [comp_eq_lex b c hbc] at h2
  rw [comp_eq_lex a c (hab.trans hbc)]
  exact lexLt_trans _ _ _ _ _ _
    (by rw [keyInts_length, keyInts_length]) (by rw [keyInts_length, keyInts_length]) h1 h2

lemma compare_incomp (a b : MoveInfo) (hab : a.has_dtm = b.has_dtm)
    (h1 : compare_move_info a b = false) (h2 : compare_move_info b a = false) :
    keyInts a = keyInts b ∧ a.uci = b.uci := by
  rw [comp_eq_lex a b hab] at h1
  rw [comp_eq_lex b a hab.symm] at h2
  exact lexLt_eq_of_incomp _ _ _ _ (by rw [keyInts_length, keyInts_length]) h1 h2

/-- A mid-game record with a successfully probed dtz, used for claim C2. -/
def c2KnownDtz : MoveInfo :=
  { uci := ['a', '2', 'a', '3'], san := ['a', '3'], insufficient_material := false,
    checkmate := false, stalemate := false, zeroing := false,
    has_wdl := true, wdl := 2, has_dtz := true, dtz := 5,
    has_dtm := false, dtm := 0 }

/-- A record whose dtz (and wdl) probe did not succeed, used for claim C2. -/
def c2UnknownDtz : MoveInfo :=
  { c2KnownDtz with
    uci := ['b', '2', 'b', '3'], san := ['b', '3'],
    has_wdl := false, wdl := 0, has_dtz := false, dtz := 0 }

/-- C2 (counterexample): a record with a known dtz does NOT sort before a
record without one; `compare_move_info` puts the record without the known
dtz first (`return b.has_dtz` on differing presence). -/
theorem c2_known_dtz_first_false :
    c2KnownDtz.has_dtz = true ∧ c2UnknownDtz.has_dtz = false ∧
    compare_move_info c2KnownDtz c2UnknownDtz = false ∧
    compare_move_info c2UnknownDtz c2KnownDtz = true := by decide

/-- C2 (amended): in `compare_move_info`, a record WITHOUT a known dtz sorts
before a record with one; when dtz-presence ties, a record WITHOUT a known
wdl sorts before a record with one. -/
theorem c2_unknown_sorts_first (a b : MoveInfo) :
    (a.has_dtz = false → b.has_dtz = true →
      compare_move_info a b = true ∧ compare_move_info b a = false) ∧
    (a.has_dtz = b.has_dtz → a.has_wdl = false → b.has_wdl = true →
      compare_move_info a b = true ∧ compare_move_info b a = false) := by
  constructor
  · intro ha hb
    constructor
    · unfold compare_move_info
      rw [if_pos (by simp [ha, hb])]
      exact hb
    · unfold compare_move_info
      rw [if_pos (by simp [ha, hb])]
      exact ha
  · intro heq ha hb
    constructor
    · unfold compare_move_info
      rw [if_neg (by simp [heq]), if_pos (by simp [ha, hb])]
      exact hb
    · unfold compare_move_info
      rw [if_neg (by simp [heq]), if_pos (by simp [ha, hb])]
      exact ha

/-- C2 (witness): the amended ordering evaluated on the concrete fixture pair. -/
theorem c2_unknown_sorts_first_witness :
    compare_move_info c2UnknownDtz c2KnownDtz = true ∧
    compare_move_info c2KnownDtz c2UnknownDtz = false :=
  (c2_unknown_sorts_first c2UnknownDtz c2KnownDtz).1 (by decide) (by decide)

/-- Intransitivity fixture for claim C3: a known dtm of 5 plies. -/
def c3DtmFive : MoveInfo :=
  { uci := ['a', '1', 'a', '2'], san := [], insufficient_material := false,
    checkmate := false, stalemate := false, zeroing := false,
    has_wdl := false, wdl := 0, has_dtz := false, dtz := 0,
    has_dtm := true, dtm := 5 }

/-- Intransitivity fixture for claim C3: dtm probe failed. -/
def c3NoDtm : MoveInfo :=
  { c3DtmFive with
    uci := ['b', '1', 'b', '2'], has_dtm := false, dtm := 0 }

/-- Intransitivity fixture for claim C3: a known dtm of 10 plies. -/
def c3DtmTen : MoveInfo :=
  { c3DtmFive with
    uci := ['c', '1', 'c', '2'], dtm := 10 }

/-- C3 (counterexample): `compare_move_info` is not transitive, hence not a
strict weak ordering over all `MoveInfo` records: the dtm key is only
compared when both records carry a dtm, but dtm-presence itself is never a
key, so a record without dtm can tie two records that the dtm key orders
oppositely to the uci tie-break. -/
theorem c3_transitivity_fails :
    compare_move_info c3DtmFive c3NoDtm = true ∧
    compare_move_info c3NoDtm c3DtmTen = true ∧
    compare_move_info c3DtmFive c3DtmTen = false := by decide

/-- C3 (amended): on any set of records that agree on dtm-presence (in
particular in the non-Gaviota build, where no record has a dtm),
`compare_move_info` is a strict weak ordering: irreflexive, transitive,
with transitive incomparability, and two records with distinct uci strings
never compare equal. -/
theorem c3_strict_weak_order (a b c : MoveInfo)
    (hab : a.has_dtm = b.has_dtm) (hbc : b.has_dtm = c.has_dtm) :
    compare_move_info a a = false ∧
    (compare_move_info a b = true → compare_move_info b c = true →
      compare_move_info a c = true) ∧
    (compare_move_info a b = false → compare_move_info b a = false →
      compare_move_info b c = false → compare_move_info c b = false →
      compare_move_info a c = false ∧ compare_move_info c a = false) ∧
    (a.uci ≠ b.uci →
      compare_move_info a b = true ∨ compare_move_info b a = true) := by
  refine ⟨compare_irrefl a, fun h1 h2 => compare_trans a b c hab hbc h1 h2, ?_, ?_⟩
  · intro h1 h2 h3 h4
    obtain ⟨k1, u1⟩ := compare_incomp a b hab h1 h2
    obtain ⟨k2, u2⟩ := compare_incomp b c hbc h3 h4
    constructor
    · rw [comp_eq_lex a c (hab.trans hbc), k1, k2, u1, u2]
      exact lexLt_irrefl _ _
    · rw [comp_eq_lex c a (hab.trans hbc).symm, ← k2, ← k1, ← u2, ← u1]
      exact lexLt_irrefl _ _
  · intro hne
    by_contra hcon
    push_neg at hcon
    obtain ⟨hx, hy⟩ := hcon
    have hx' : compare_move_info a b = false := Bool.eq_false_iff.mpr hx
    have hy' : compare_move_info b a = false := Bool.eq_false_iff.mpr hy
    exact hne (compare_incomp a b hab hx' hy').2

/-- Uniform-dtm fixture (dtm absent) for the C3 witness, smallest uci. -/
def c3w1 : MoveInfo := { c3NoDtm with uci := ['a'] }

/-- Uniform-dtm fixture (dtm absent) for the C3 witness, middle uci. -/
def c3w2 : MoveInfo := { c3NoDtm with uci := ['b'] }

/-- Uniform-dtm fixture (dtm absent) for the C3 witness, largest uci. -/
def c3w3 : MoveInfo := { c3NoDtm with uci := ['c'] }

/-- C3 (witness): the strict-weak-order properties applied to a concrete
dtm-free fixture triple. -/
theorem c3_strict_weak_order_witness :
    compare_move_info c3w1 c3w1 = false ∧
    compare_move_info c3w1 c3w3 = true ∧
    (compare_move_info c3w1 c3w2 = true ∨ compare_move_info c3w2 c3w1 = true) :=
  ⟨(c3_strict_weak_order c3w1 c3w2 c3w3 rfl rfl).1,
   (c3_strict_weak_order c3w1 c3w2 c3w3 rfl rfl).2.1 (by decide) (by decide),
   (c3_strict_weak_order c3w1 c3w2 c3w3 rfl rfl).2.2.2 (by decide)⟩

/-- Fixture for claim C4: a winning (wdl = -2) move that zeroes the clock. -/
def c4Zeroing : MoveInfo :=
  { uci := ['a', '7', 'a', '8', 'q'], san := [], insufficient_material := false,
    checkmate := false, stalemate := false, zeroing := true,
    has_wdl := true, wdl := -2, has_dtz := true, dtz := -6,
    has_dtm := false, dtm := 0 }

/-- Fixture for claim C4: a winning (wdl = -2) move that keeps the clock. -/
def c4NonZeroing : MoveInfo :=
  { c4Zeroing with
    uci := ['b', '1', 'b', '2'], zeroing := false, dtz := -6 }

/-- C4 (counterexample): with the mover winning (both records wdl = -2 < 0)
and zeroing flags differing, the claim says the NON-zeroing record sorts
first, but `compare_move_info` puts the ZEROING record first. -/
theorem c4_nonzeroing_first_false :
    c4Zeroing.wdl = -2 ∧ c4NonZeroing.wdl = -2 ∧
    c4Zeroing.zeroing = true ∧ c4NonZeroing.zeroing = false ∧
    compare_move_info c4NonZeroing c4Zeroing = false ∧
    compare_move_info c4Zeroing c4NonZeroing = true := by decide

/-- C4 (amended): when both records carry the same known decisive wdl and
differ in the zeroing flag (earlier keys tied), the ZEROING record sorts
first when the mover is winning (wdl < 0, opponent perspective) and the
NON-zeroing record sorts first when the mover is losing (wdl > 0). -/
theorem c4_zeroing_preference (a b : MoveInfo)
    (hdz : a.has_dtz = b.has_dtz)
    (hwa : a.has_wdl = true) (hwb : b.has_wdl = true) (hw : a.wdl = b.wdl)
    (hc : a.checkmate = b.checkmate) (hs : a.stalemate = b.stalemate)
    (hi : a.insufficient_material = b.insufficient_material)
    (hm : a.has_dtm = true → b.has_dtm = true → a.dtm = b.dtm) :
    (a.wdl < 0 → a.zeroing = true → b.zeroing = false →
      compare_move_info a b = true ∧ compare_move_info b a = false) ∧
    (0 < a.wdl → a.zeroing = false → b.zeroing = true →
      compare_move_info a b = true ∧ compare_move_info b a = false) := by
  constructor
  · intro hneg hza hzb
    constructor
    · unfold compare_move_info
      rw [if_neg (by simp [hdz]), if_neg (by simp [hwa, hwb]),
          if_neg (by simp [hw]), if_neg (by simp [hc]), if_neg (by simp [hs]),
          if_neg (by simp [hi]),
          if_neg (by rintro ⟨x, y, n⟩; exact n (hm x y).symm),
          if_pos ⟨hwa, hwb, hneg, by simp [hza, hzb]⟩]
      exact hza
    · unfold compare_move_info
      rw [if_neg (by simp [hdz]), if_neg (by simp [hwa, hwb]),
          if_neg (by simp [hw]), if_neg (by simp [hc]), if_neg (by simp [hs]),
          if_neg (by simp [hi]),
          if_neg (by rintro ⟨x, y, n⟩; exact n (hm y x)),
          if_pos ⟨hwb, hwa, by rw [← hw]; exact hneg, by simp [hza, hzb]⟩]
      exact hzb
  · intro hpos hza hzb
    constructor
    · unfold compare_move_info
      rw [if_neg (by simp [hdz]), if_neg (by simp [hwa, hwb]),
          if_neg (by simp [hw]), if_neg (by simp [hc]), if_neg (by simp [hs]),
          if_neg (by simp [hi]),
          if_neg (by rintro ⟨x, y, n⟩; exact n (hm x y).symm),
          if_neg (by rintro ⟨-, -, hlt, -⟩; omega),
          if_pos ⟨hwa, hwb, hpos, by simp [hza, hzb]⟩]
      exact hzb
    · unfold compare_move_info
      rw [if_neg (by simp [hdz]), if_neg (by simp [hwa, hwb]),
          if_neg (by simp [hw]), if_neg (by simp [hc]), if_neg (by simp [hs]),
          if_neg (by simp [hi]),
          if_neg (by rintro ⟨x, y, n⟩; exact n (hm y x)),
          if_neg (by rintro ⟨-, -, hlt, -⟩; omega),
          if_pos ⟨hwb, hwa, by rw [← hw]; exact hpos, by simp [hza, hzb]⟩]
      exact hza

/-- C4 (witness): the amended zeroing preference evaluated on the concrete
winning fixture pair. -/
theorem c4_zeroing_preference_witness :
    compare_move_info c4Zeroing c4NonZeroing = true ∧
    compare_move_info c4NonZeroing c4Zeroing = false :=
  (c4_zeroing_preference c4Zeroing c4NonZeroing rfl rfl rfl rfl rfl rfl rfl
      (fun h _ => absurd h (by decide))).1 (by decide) (by decide) (by decide)

/-- Win/draw/loss derivation from a successful dtz probe and the post-move
halfmove clock (`tbserve.cpp` lines 471-475). -/
def derive_wdl (dtz r50 : Int) : Int :=
  if dtz < -100 ∧ dtz - r50 ≤ -100 then -1
  else if dtz > 100 ∧ dtz + r50 ≥ -100 then 1
  else if dtz < 0 then -2
  else if dtz > 0 then 2
  else 0

/-- The side to move of a position. -/
inductive Side
  | white
  | black
deriving DecidableEq, Repr

/-- The opposite side; after a move, the player who made it is
`Side.other` of the side to move of the resulting position. -/
def Side.other : Side → Side
  | .white => .black
  | .black => .white

/-- Outcome classes of the Gaviota mate-distance backend that reach the
sign-conversion code of `probe_dtm` (`tb_WMATE` / `tb_BMATE`). -/
inductive MateClass
  | wmate
  | bmate
deriving DecidableEq, Repr

/-- The side that delivers the mate according to the backend class. -/
def mating_side : MateClass → Side
  | .wmate => .white
  | .bmate => .black

/-- The signed value returned by `probe_dtm` (`tbserve.cpp` lines 342-353):
`plies_to_mate` made positive when the side to move of the probed position
is the mating side, negative otherwise. -/
def probe_dtm_value (info : MateClass) (stm : Side) (plies : Nat) : Int :=
  match info, stm with
  | .wmate, .white => (plies : Int)
  | .bmate, .black => (plies : Int)
  | .wmate, .black => -(plies : Int)
  | .bmate, .white => -(plies : Int)

/-- External inputs of one iteration of the per-move evaluation loop of
`get_api` (`tbserve.cpp` lines 435-487): the facts the chess engine and the
probing backends report about the position after the move, plus the query
position's own checkmate flag computed before the loop. -/
structure EvalInput where
  query_checkmate : Bool
  uci : List Char
  san : List Char
  num_moves : Nat
  checkers : Bool
  insufficient : Bool
  can_castle : Bool
  piece_count : Nat
  max_cardinality : Nat
  rule50 : Nat
  dtz_val : Int
  dtz_ok : Bool
  dtm_val : Int
  dtm_ok : Bool
deriving DecidableEq, Repr

/-- One iteration of the move-evaluation loop of `get_api` (`tbserve.cpp`
lines 435-487, Gaviota build): assembles the `MoveInfo` record for one
legal move. The loop only runs when the query position has legal moves, so
`query_checkmate` is `false` for every record the server actually builds. -/
def eval_move (inp : EvalInput) : MoveInfo :=
  let cm : Bool := inp.num_moves == 0 && inp.checkers
  let sm : Bool := inp.num_moves == 0 && !inp.query_checkmate
  let base : MoveInfo :=
    { uci := inp.uci, san := inp.san, insufficient_material := inp.insufficient,
      checkmate := cm, stalemate := sm, zeroing := inp.rule50 == 0,
      has_wdl := false, wdl := 0, has_dtz := false, dtz := 0,
      has_dtm := false, dtm := 0 }
  if cm then
    { base with
      has_wdl := true, wdl := -2, has_dtm := true, dtm := 0 }
  else if sm || inp.insufficient then
    { base with
      has_wdl := true, wdl := 0 }
  else if inp.can_castle = false ∧ inp.piece_count ≤ inp.max_cardinality then
    if inp.dtz_ok then
      { base with
        has_dtz := true, dtz := inp.dtz_val, has_wdl := true,
        wdl := derive_wdl inp.dtz_val (inp.rule50 : Int),
        has_dtm := inp.dtm_ok, dtm := inp.dtm_val }
    else
      { base with
        dtz := inp.dtz_val }
  else
    base

/-- Evaluator input for claim C1: the query position has legal moves (so its
checkmate flag is false) and the evaluated move leaves the opponent with no
legal replies while in check, i.e. the move delivers checkmate. -/
def c1MatingInput : EvalInput :=
  { query_checkmate := false, uci := ['h', '5', 'h', '7'], san := [],
    num_moves := 0, checkers := true, insufficient := false,
    can_castle := false, piece_count := 4, max_cardinality := 6,
    rule50 := 3, dtz_val := 0, dtz_ok := false, dtm_val := 0, dtm_ok := false }

/-- C1 (code bug): for a checkmating move the record comes out with BOTH
`checkmate = true` and `stalemate = true`: line 447 of `tbserve.cpp` tests
the query position's `checkmate` flag (always false inside the move loop)
instead of the record's own flag, so the record's `stalemate` degenerates to
`num_moves == 0` and the claimed
`isStalemate = (count == 0 AND NOT isCheckmate)` is violated. -/
theorem c1_checkmate_and_stalemate_both_true :
    (eval_move c1MatingInput).checkmate = true ∧
    (eval_move c1MatingInput).stalemate = true := by decide

/-- C7: when the dtz probe succeeds for a non-terminal resulting position,
the record's wdl is derived from dtz and the halfmove clock by exactly the
claimed thresholds. -/
theorem c7_wdl_thresholds (inp : EvalInput)
    (h1 : (inp.num_moves == 0 && inp.checkers) = false)
    (h2 : (inp.num_moves == 0 && !inp.query_checkmate) = false)
    (h3 : inp.insufficient = false) (h4 : inp.can_castle = false)
    (h5 : inp.piece_count ≤ inp.max_cardinality) (h6 : inp.dtz_ok = true) :
    (eval_move inp).has_wdl = true ∧
    (eval_move inp).dtz = inp.dtz_val ∧
    (inp.dtz_val < -100 → inp.dtz_val - (inp.rule50 : Int) ≤ -100 →
      (eval_move inp).wdl = -1) ∧
    (inp.dtz_val > 100 → inp.dtz_val + (inp.rule50 : Int) ≥ -100 →
      (eval_move inp).wdl = 1) ∧
    (¬(inp.dtz_val < -100 ∧ inp.dtz_val - (inp.rule50 : Int) ≤ -100) →
     ¬(inp.dtz_val > 100 ∧ inp.dtz_val + (inp.rule50 : Int) ≥ -100) →
      ((inp.dtz_val < 0 → (eval_move inp).wdl = -2) ∧
       (inp.dtz_val > 0 → (eval_move inp).wdl = 2) ∧
       (inp.dtz_val = 0 → (eval_move inp).wdl = 0))) := by
  have hwdl : (eval_move inp).wdl = derive_wdl inp.dtz_val (inp.rule50 : Int) := by
    simp [eval_move, h1, h2, h3, h4, h5, h6]
  refine ⟨by simp [eval_move, h1, h2, h3, h4, h5, h6],
          by simp [eval_move, h1, h2, h3, h4, h5, h6], ?_, ?_, ?_⟩
  · intro ha hb
    rw [hwdl]
    unfold derive_wdl
    rw [if_pos ⟨ha, hb⟩]
  · intro ha hb
    rw [hwdl]
    unfold derive_wdl
    rw [if_neg (by omega), if_pos ⟨ha, hb⟩]
  · intro hn1 hn2
    rw [hwdl]
    unfold derive_wdl
    rw [if_neg hn1, if_neg hn2]
    refine ⟨fun h => ?_, fun h => ?_, fun h => ?_⟩
    · rw [if_pos h]
    · rw [if_neg (by omega), if_pos h]
    · rw [if_neg (by omega), if_neg (by omega)]

/-- Evaluator input for the C7 witness: dtz probe returned -150 with a
halfmove clock of 10, which the thresholds classify as a blessed loss. -/
def c7Input : EvalInput :=
  { query_checkmate := false, uci := ['e', '2', 'e', '4'], san := [],
    num_moves := 22, checkers := false, insufficient := false,
    can_castle := false, piece_count := 5, max_cardinality := 6,
    rule50 := 10, dtz_val := -150, dtz_ok := true, dtm_val := 0, dtm_ok := false }

/-- C7 (witness): the threshold derivation evaluated on the concrete probe
result. -/
theorem c7_wdl_thresholds_witness :
    (eval_move c7Input).has_wdl = true ∧ (eval_move c7Input).wdl = -1 :=
  ⟨(c7_wdl_thresholds c7Input (by decide) (by decide) rfl rfl (by decide) rfl).1,
   (c7_wdl_thresholds c7Input (by decide) (by decide) rfl rfl (by decide) rfl).2.2.1
     (by decide) (by decide)⟩

/-- Evaluator input for claim C9: after the move, White is to move and the
Gaviota backend reports a forced White mate in 3 plies; the mover was
Black. -/
def c9Input : EvalInput :=
  { query_checkmate := false, uci := ['g', '8', 'g', '7'], san := [],
    num_moves := 5, checkers := false, insufficient := false,
    can_castle := false, piece_count := 4, max_cardinality := 6,
    rule50 := 1, dtz_val := 6, dtz_ok := true,
    dtm_val := probe_dtm_value .wmate .white 3, dtm_ok := true }

/-- C9 (counterexample): the evaluator stores the probe value unchanged, so
the stored dtm is +3 — positive — although the mating side is White, the
side to move of the probed position, and the player who just moved (Black)
is the one getting mated: positive stored dtm does NOT mean good for the
player who just moved. -/
theorem c9_sign_not_mover_oriented :
    (eval_move c9Input).dtm = 3 ∧ (0 : Int) < 3 ∧
    mating_side .wmate = .white ∧ Side.other .white = .black ∧
    ¬ ((0 : Int) < (eval_move c9Input).dtm ↔
        mating_side .wmate = Side.other .white) := by decide

/-- C9 (amended): `probe_dtm`'s sign is relative to the side to move of the
probed (post-move) position — positive exactly when that side, the mover's
opponent, is the mating side — and the evaluator stores this value with no
re-orientation to the mover's perspective. -/
theorem c9_dtm_stored_unchanged (info : MateClass) (stm : Side) (plies : Nat)
    (hp : 0 < plies) (inp : EvalInput)
    (h1 : (inp.num_moves == 0 && inp.checkers) = false)
    (h2 : (inp.num_moves == 0 && !inp.query_checkmate) = false)
    (h3 : inp.insufficient = false) (h4 : inp.can_castle = false)
    (h5 : inp.piece_count ≤ inp.max_cardinality) (h6 : inp.dtz_ok = true)
    (h7 : inp.dtm_val = probe_dtm_value info stm plies) :
    (0 < probe_dtm_value info stm plies ↔ mating_side info = stm) ∧
    (eval_move inp).dtm = probe_dtm_value info stm plies ∧
    (eval_move inp).has_dtm = inp.dtm_ok := by
  refine ⟨?_, ?_, ?_⟩
  · cases info <;> cases stm <;>
      simp [probe_dtm_value, mating_side] <;> omega
  · rw [← h7]
    simp [eval_move, h1, h2, h3, h4, h5, h6]
  · simp [eval_move, h1, h2, h3, h4, h5, h6]

/-- C9 (witness): the backend-perspective sign property and unchanged
storage evaluated on the concrete White-mates-in-3 input. -/
theorem c9_dtm_stored_unchanged_witness :
    ((0 : Int) < probe_dtm_value .wmate .white 3 ↔
      mating_side .wmate = Side.white) ∧
    (eval_move c9Input).dtm = probe_dtm_value .wmate .white 3 :=
  ⟨(c9_dtm_stored_unchanged .wmate .white 3 (by decide) c9Input
      (by decide) (by decide) rfl rfl (by decide) rfl rfl).1,
   (c9_dtm_stored_unchanged .wmate .white 3 (by decide) c9Input
      (by decide) (by decide) rfl rfl (by decide) rfl rfl).2.1⟩

/-- The NUL terminator of a C string. -/
def nulChar : Char := Char.ofNat 0

/-- Result of a validator scan step: `fail` and `ok` mirror the `return
false` / successful-progress paths of the C code, `oob` marks an attempt to
read past the NUL terminator of the input (an out-of-bounds read). -/
inductive ScanRes (α : Type)
  | oob : ScanRes α
  | fail : ScanRes α
  | ok : α → ScanRes α
deriving DecidableEq, Repr

/-- The inner file loop of the board scan (`validate_fen`, `tbserve.cpp`
lines 120-152): consumes one rank's characters while counting kings;
returns the final `file` counter, the updated king counts and the rest of
the input. -/
def scan_files (file : Nat) (lastNum : Bool) (wk bk : Nat) :
    List Char → ScanRes (Nat × Nat × Nat × List Char)
  | [] => if file > 7 then .ok (file, wk, bk, []) else .oob
  | c :: rest =>
    if file > 7 then .ok (file, wk, bk, c :: rest)
    else if '1' ≤ c ∧ c ≤ '8' then
      if lastNum then .fail
      else scan_files (file + (c.toNat - '1'.toNat) + 1) true wk bk rest
    else if c = 'k' then scan_files (file + 1) false wk (bk + 1) rest
    else if c = 'K' then scan_files (file + 1) false (wk + 1) bk rest
    else if c = 'p' ∨ c = 'P' ∨ c = 'n' ∨ c = 'N' ∨ c = 'b' ∨ c = 'B' ∨
            c = 'r' ∨ c = 'R' ∨ c = 'q' ∨ c = 'Q' then
      scan_files (file + 1) false wk bk rest
    else .fail

/-- The 8-rank board loop of `validate_fen` (lines 119-164): after each
rank checks the file sum and the `/` (between ranks) or space (after the
last rank) separator, accumulating king counts over the whole board. -/
def scan_ranks : Nat → Nat → Nat → List Char → ScanRes (Nat × Nat × List Char)
  | 0, wk, bk, s => .ok (wk, bk, s)
  | n + 1, wk, bk, s =>
    match scan_files 0 false wk bk s with
    | .oob => .oob
    | .fail => .fail
    | .ok (file, wk2, bk2, s2) =>
      if file ≠ 8 then .fail
      else match s2 with
        | [] => .oob
        | c :: rest =>
          if c = nulChar then .fail
          else if n = 0 then (if c = ' ' then .ok (wk2, bk2, rest) else .fail)
          else (if c = '/' then scan_ranks n wk2 bk2 rest else .fail)

/-- The default king-count rule (`validate_kings`, lines 104-107): exactly
one king per side. -/
def validate_kings_default (wk bk : Nat) : Bool := wk == 1 && bk == 1

/-- The king-count rule of the king-capture (atomic) variant specialization
(lines 110-113): at least one king in total. -/
def validate_kings_atomic (wk bk : Nat) : Bool := decide (1 ≤ wk + bk)

/-- Field 2 of `validate_fen` (lines 168-170): side to move, then a space. -/
def scan_turn : List Char → ScanRes (List Char)
  | [] => .oob
  | c :: rest =>
    if c = 'w' ∨ c = 'b' then
      match rest with
      | [] => .oob
      | c2 :: r2 => if c2 = ' ' then .ok r2 else .fail
    else .fail

/-- The do-while body of the castling field (lines 175-181): checks the
current character, then reads the next, stopping at a space. -/
def castling_loop : Char → List Char → ScanRes (List Char)
  | c, [] =>
    if ('a' ≤ c ∧ c ≤ 'h') ∨ ('A' ≤ c ∧ c ≤ 'H') ∨
        c = 'q' ∨ c = 'Q' ∨ c = 'k' ∨ c = 'K' then .oob
    else .fail
  | c, c2 :: rest =>
    if ('a' ≤ c ∧ c ≤ 'h') ∨ ('A' ≤ c ∧ c ≤ 'H') ∨
        c = 'q' ∨ c = 'Q' ∨ c = 'k' ∨ c = 'K' then
      if c2 = ' ' then .ok rest else castling_loop c2 rest
    else .fail

/-- Field 3 of `validate_fen` (lines 173-182): castling rights. -/
def scan_castling : List Char → ScanRes (List Char)
  | [] => .oob
  | c :: rest =>
    if c ≠ '-' then castling_loop c rest
    else match rest with
      | [] => .oob
      | c2 :: r2 => if c2 ≠ ' ' then .fail else .ok r2

/-- Field 4 of `validate_fen` (lines 185-192): en-passant target, then a
space. -/
def scan_ep : List Char → ScanRes (List Char)
  | [] => .oob
  | c :: rest =>
    if c ≠ '-' then
      if c < 'a' ∨ c > 'h' then .fail
      else match rest with
        | [] => .oob
        | c2 :: r2 =>
          if c2 ≠ '3' ∧ c2 ≠ '6' then .fail
          else match r2 with
            | [] => .oob
            | c3 :: r3 => if c3 = ' ' then .ok r3 else .fail
    else match rest with
      | [] => .oob
      | c2 :: r2 => if c2 = ' ' then .ok r2 else .fail

/-- The do-while of the halfmove-clock field (lines 196-198), with the
source's test `c < '0' && c > '9'` kept verbatim. -/
def halfmove_loop : Char → List Char → ScanRes (List Char)
  | c, [] => if c < '0' ∧ c > '9' then .fail else .oob
  | c, c2 :: rest =>
    if c < '0' ∧ c > '9' then .fail
    else if c2 = ' ' then .ok rest else halfmove_loop c2 rest

/-- Field 5 of `validate_fen` (lines 195-198): halfmove clock. -/
def scan_halfmove : List Char → ScanRes (List Char)
  | [] => .oob
  | c :: rest => halfmove_loop c rest

/-- The do-while of the fullmove field (lines 202-204): digits until a NUL
or a space, returning the terminating character. -/
def fullmove_loop : Char → List Char → ScanRes (Char × List Char)
  | c, [] => if c < '0' ∨ c > '9' then .fail else .oob
  | c, c2 :: rest =>
    if c < '0' ∨ c > '9' then .fail
    else if c2 = nulChar ∨ c2 = ' ' then .ok (c2, rest)
    else fullmove_loop c2 rest

/-- Field 6 of `validate_fen` (lines 201-207). -/
def scan_fullmove : List Char → ScanRes (Char × List Char)
  | [] => .oob
  | c :: rest => fullmove_loop c rest

/-- `validate_fen` (`tbserve.cpp` lines 116-209) over the characters of the
query string. The C scan walks a NUL-terminated buffer, modelled by
appending the terminator; `ok`/`fail` are the `true`/`false` returns and
`oob` marks a read past the terminator. The king-count rule is the
compile-time variant specialization, passed as a parameter; the sibling
`validate_fen` of the atbserve variant (which counts no kings) is the
instance whose rule accepts every count. -/
def validate_fen_run (kings_rule : Nat → Nat → Bool) (fen : List Char) :
    ScanRes Unit :=
  match scan_ranks 8 0 0 (fen ++ [nulChar]) with
  | .oob => .oob
  | .fail => .fail
  | .ok (wk, bk, s1) =>
    if kings_rule wk bk = false then .fail
    else match scan_turn s1 with
      | .oob => .oob
      | .fail => .fail
      | .ok s2 =>
        match scan_castling s2 with
        | .oob => .oob
        | .fail => .fail
        | .ok s3 =>
          match scan_ep s3 with
          | .oob => .oob
          | .fail => .fail
          | .ok s4 =>
            match scan_halfmove s4 with
            | .oob => .oob
            | .fail => .fail
            | .ok s5 =>
              match scan_fullmove s5 with
              | .oob => .oob
              | .fail => .fail
              | .ok (cEnd, _) => if cEnd = nulChar then .ok () else .fail

/-- C5 (code bug): the halfmove-clock digit test `c < '0' && c > '9'` (line
197) is unsatisfiable — the correct field-6 test two lines below uses `||`
— so ANY character is accepted in the halfmove field: this position text,
whose halfmove field is the non-digit `x`, passes validation although the
claim requires it to fail. -/
theorem c5_halfmove_accepts_nondigit :
    (¬ ('0' ≤ 'x' ∧ 'x' ≤ '9')) ∧
    validate_fen_run validate_kings_default
      "8/8/8/8/8/8/8/k6K w - - x 1".toList = .ok () := by decide

/-- C10 (code bug): on an input that ends inside the halfmove-clock field
without a terminating space, the loop at lines 196-198 treats the NUL
terminator as an acceptable digit (the vacuous `&&` test) and keeps
scanning PAST the terminator — an out-of-bounds read — instead of
returning false. -/
theorem c10_halfmove_reads_past_nul :
    validate_fen_run validate_kings_default
      "8/8/8/8/8/8/8/k6K w - - 0".toList = .oob := by decide

/-- C8: the king-count rule is applied to the counts accumulated by the full
board scan — acceptance under the default rule forces exactly one king per
side, and under the atomic rule at least one king in total — and the two
rules decide exactly the claimed predicates. -/
lemma validate_fen_king_gate (rule : Nat → Nat → Bool) (fen : List Char)
    (wk bk : Nat) (s1 : List Char)
    (hscan : scan_ranks 8 0 0 (fen ++ [nulChar]) = .ok (wk, bk, s1))
    (hrule : rule wk bk = false) : validate_fen_run rule fen = .fail := by
  unfold validate_fen_run
  rw [hscan]
  simp [hrule]

theorem c8_king_rule_after_board_scan :
    (∀ wk bk, validate_kings_default wk bk = true ↔ (wk = 1 ∧ bk = 1)) ∧
    (∀ wk bk, validate_kings_atomic wk bk = true ↔ 1 ≤ wk + bk) ∧
    (∀ (rule : Nat → Nat → Bool) (fen : List Char) (wk bk : Nat) (s1 : List Char),
      scan_ranks 8 0 0 (fen ++ [nulChar]) = .ok (wk, bk, s1) →
      rule wk bk = false → validate_fen_run rule fen = .fail) ∧
    (∀ (fen : List Char) (wk bk : Nat) (s1 : List Char),
      scan_ranks 8 0 0 (fen ++ [nulChar]) = .ok (wk, bk, s1) →
      (validate_fen_run validate_kings_default fen = .ok () →
        wk = 1 ∧ bk = 1) ∧
      (validate_fen_run validate_kings_atomic fen = .ok () →
        1 ≤ wk + bk)) := by
  refine ⟨?_, ?_, fun rule fen wk bk s1 h1 h2 =>
    validate_fen_king_gate rule fen wk bk s1 h1 h2, ?_⟩
  · intro wk bk
    simp [validate_kings_default]
  · intro wk bk
    simp [validate_kings_atomic]
  · intro fen wk bk s1 hscan
    constructor
    · intro hok
      by_cases hr : validate_kings_default wk bk = true
      · simpa [validate_kings_default] using hr
      · exfalso
        have hfail := validate_fen_king_gate validate_kings_default fen wk bk s1
          hscan (Bool.eq_false_iff.mpr hr)
        rw [hok] at hfail
        exact absurd hfail (by simp)
    · intro hok
      by_cases hr : validate_kings_atomic wk bk = true
      · simpa [validate_kings_atomic] using hr
      · exfalso
        have hfail := validate_fen_king_gate validate_kings_atomic fen wk bk s1
          hscan (Bool.eq_false_iff.mpr hr)
        rw [hok] at hfail
        exact absurd hfail (by simp)

/-- C8 (witness): a board with two white kings and no black king, scanned to
king counts (2, 0), is rejected by the default rule's gate and accepted end
to end under the atomic rule. -/
theorem c8_king_rule_witness :
    (validate_kings_default 1 1 = true ↔ ((1 : Nat) = 1 ∧ (1 : Nat) = 1)) ∧
    (validate_kings_atomic 2 0 = true ↔ 1 ≤ 2 + 0) ∧
    validate_fen_run validate_kings_default
      "K6K/8/8/8/8/8/8/8 w - - 0 1".toList = .fail :=
  ⟨(c8_king_rule_after_board_scan.1 1 1),
   (c8_king_rule_after_board_scan.2.1 2 0),
   (c8_king_rule_after_board_scan.2.2.1 validate_kings_default
      "K6K/8/8/8/8/8/8/8 w - - 0 1".toList 2 0
      ("w - - 0 1".toList ++ [nulChar]) (by decide) (by decide))⟩

/-- Outcome of the request-handling prefix of `get_api`: the two error
replies and the point where the external position parser (`pos.set`) gets
invoked on the request's position text. -/
inductive ResolveStep
  | missingFen : ResolveStep
  | invalidFen : ResolveStep
  | parserInvoked : List Char → ResolveStep
deriving DecidableEq, Repr

/-- Underscore-to-space normalization of the fen parameter
(`std::replace`, `tbserve.cpp` line 382). -/
def normalize_fen (s : List Char) : List Char :=
  s.map (fun c => if c = '_' then ' ' else c)

/-- The request prefix of `get_api` in `tbserve.cpp` (lines 370-398):
missing or empty fen is rejected with the missing-FEN error, then the
normalized fen must pass `validate_fen` before the external parser is
reached; failing validation yields the invalid-FEN error. -/
def tbserve_resolve (c_fen : Option (List Char)) : ResolveStep :=
  match c_fen with
  | none => .missingFen
  | some s =>
    if s.length = 0 then .missingFen
    else
      if validate_fen_run validate_kings_default (normalize_fen s) = .ok () then
        .parserInvoked (normalize_fen s)
      else .invalidFen

/-- The request prefix of `get_api` in `atbserve.cpp` (lines 77-93): no
validation happens (the source reads `// TODO: Validate FEN`); every
non-empty fen reaches the external parser directly. -/
def atbserve_resolve (c_fen : Option (List Char)) : ResolveStep :=
  match c_fen with
  | none => .missingFen
  | some s => if s.length = 0 then .missingFen else .parserInvoked s

/-- C6 (code bug): `tbserve.cpp` does return the invalid-FEN error without
reaching the parser on this malformed input, but the sibling resolver in
`atbserve.cpp` invokes the external parser on the very same input that
fails validation — its validation step is an unimplemented TODO — so
validation does NOT always run before the parser is called. -/
theorem c6_atbserve_skips_validation :
    validate_fen_run validate_kings_default
      (normalize_fen ['x', 'y', 'z']) = .fail ∧
    tbserve_resolve (some ['x', 'y', 'z']) = .invalidFen ∧
    atbserve_resolve (some ['x', 'y', 'z']) = .parserInvoked ['x', 'y', 'z'] := by
  decide

end Tbserve
